import Mathlib

/-!
Verification of the compilation-context orchestrator (cranelift-codegen
`context.rs`) and the filetest `function_runner.rs`.

The orchestrator sequences external passes over a `Context` holding the
function being compiled and its derived analyses.  The passes themselves
(preopt, legalizer, register allocator, ...) live outside the orchestrator
sources; they are embedded as abstract function fields of the `Isa`
structure, so every theorem below quantifies over all possible pass
behaviours.  Each orchestrator operation additionally records a trace of
the pass and verification events it performs, which makes the pipeline
ordering and tier gating observable.
-/

/-- Optimization levels of the `opt_level` setting (external `settings`
crate): `fastest`, `default`, `best`. -/
inductive OptLevel
  | Fastest
  | Default
  | Best
deriving DecidableEq, Repr

/-- The flag subset of the target settings read by `Context::compile`:
`opt_level()`, `enable_nan_canonicalization()` and `enable_verifier()`. -/
structure Flags where
  opt_level : OptLevel
  enable_nan_canonicalization : Bool
  enable_verifier : Bool
deriving DecidableEq, Repr

/-- Calling conventions (external `isa::CallConv`); only the constructors
needed by `FunctionRunner::run` and distinctness matter here. -/
inductive CallConv
  | Fast
  | Cold
  | SystemV
  | WindowsFastcall
deriving DecidableEq, Repr

/-- Value types as far as `FunctionRunner::run` inspects them: the boolean
types answer `is_bool()` with true. -/
inductive ValType
  | b1
  | b8
  | b64
  | i32
  | i64
  | f64
deriving DecidableEq, Repr

/-- `Type::is_bool()` of the external `ir::types` module. -/
def ValType.is_bool : ValType → Bool
  | ValType.b1 => true
  | ValType.b8 => true
  | ValType.b64 => true
  | _ => false

/-- `ir::AbiParam`: the `value_type` field is all `run` reads. -/
structure AbiParam where
  value_type : ValType
deriving DecidableEq, Repr

/-- `ir::Signature`: parameter and return lists plus the calling
convention. -/
structure Signature where
  params : List AbiParam
  returns : List AbiParam
  call_conv : CallConv
deriving DecidableEq, Repr

/-- The IR function (external `ir::Function`): its signature and name are
inspected by `FunctionRunner::run`; everything the passes rewrite is
abstracted into the opaque `body`. -/
structure Func where
  name : String
  signature : Signature
  body : Nat
deriving DecidableEq, Repr

/-- Modelled from the spec: `Function::new()` (external `ir` crate) builds
an empty function; `clear` resets a function to this same empty state. -/
def Func.new : Func :=
  { name := "", signature := { params := [], returns := [], call_conv := CallConv.Fast }, body := 0 }

/-- Modelled from the spec: each derived analysis (`ControlFlowGraph`,
`DominatorTree`, `LoopAnalysis`) and the register-allocation context are
opaque values; `clearedAnalysis` is the empty state that both `X::new()`
and `X::clear()` (external crates) produce — the spec describes `clear` as
resetting every owned structure to an empty state. -/
def clearedAnalysis : Nat := 0

/-- `binemit::CodeInfo`: sizes of the emitted artifact. -/
structure CodeInfo where
  code_size : Nat
  jumptables_size : Nat
  rodata_size : Nat
  total_size : Nat
deriving DecidableEq, Repr

/-- `CodegenError` (external `result` module): verifier errors carry the
collected violation list, every other failure is abstracted by a code. -/
inductive CodegenError
  | verifier (errors : List Nat)
  | other (code : Nat)
deriving DecidableEq, Repr

/-- Rendering used by `FunctionRunner::run`'s `map_err(|e| e.to_string())`. -/
def CodegenError.to_string : CodegenError → String
  | CodegenError.verifier es => "verifier errors: " ++ toString es.length
  | CodegenError.other n => "codegen error " ++ toString n

/-- Observable events of one compilation: one constructor per pass or
analysis update the orchestrator can run, plus the two verification
checks. -/
inductive Ev
  | verify
  | verifyLocations
  | computeCfg
  | preopt
  | nanCanon
  | legalize
  | postopt
  | computeDomtree
  | computeLoopAnalysis
  | licm
  | gvn
  | uce
  | dce
  | regalloc
  | prologueEpilogue
  | shrink
  | relaxBranches
deriving DecidableEq, Repr

/-- The target descriptor together with the external pass and analysis
implementations the orchestrator consumes.  Every pass living outside
`context.rs` is a plain function field here, mirroring its Rust borrow
signature (which state it reads and which it may rewrite). -/
structure Isa where
  flags : Flags
  /-- `simple_preopt::do_preopt(&mut func, &mut cfg)` -/
  do_preopt : Func → Nat → Func × Nat
  /-- `nan_canonicalization::do_nan_canonicalization(&mut func)` -/
  do_nan_canonicalization : Func → Func
  /-- `legalize_function(&mut func, &mut cfg, isa)` -/
  legalize_function : Func → Nat → Func × Nat
  /-- `postopt::do_postopt(&mut func, isa)` -/
  do_postopt : Func → Func
  /-- `ControlFlowGraph::compute(&func)` -/
  cfg_compute : Func → Nat
  /-- `DominatorTree::compute(&func, &cfg)` -/
  domtree_compute : Func → Nat → Nat
  /-- `LoopAnalysis::compute(&func, &cfg, &domtree)` -/
  loop_compute : Func → Nat → Nat → Nat
  /-- `licm::do_licm(isa, &mut func, &mut cfg, &mut domtree, &mut loop_analysis)` -/
  do_licm : Func → Nat → Nat → Nat → Func × Nat × Nat × Nat
  /-- `simple_gvn::do_simple_gvn(&mut func, &mut domtree)` -/
  do_simple_gvn : Func → Nat → Func × Nat
  /-- `unreachable_code::eliminate_unreachable_code(&mut func, &mut cfg, &domtree)` -/
  eliminate_unreachable_code_fn : Func → Nat → Nat → Func × Nat
  /-- `dce::do_dce(&mut func, &mut domtree)` -/
  do_dce : Func → Nat → Func × Nat
  /-- `regalloc::Context::run(isa, &mut func, &cfg, &mut domtree)`, fallible -/
  regalloc_run : Nat → Func → Nat → Nat → Except CodegenError (Nat × Func × Nat)
  /-- `TargetIsa::prologue_epilogue(&mut func)`, fallible -/
  prologue_epilogue_fn : Func → Except CodegenError Func
  /-- `binemit::shrink_instructions(&mut func, isa)` -/
  shrink_fn : Func → Func
  /-- `binemit::relax_branches(&mut func, &mut cfg, &mut domtree, isa)`,
  fallible; its `CodeInfo` result is given by `measure` below. -/
  relax_fn : Func → Nat → Nat → Except CodegenError (Func × Nat × Nat)
  /-- Modelled from the spec: the `CodeInfo` describing the artifact for a
  given final function state.  The spec requires `CodeInfo` to be
  reproducible from the same Function+target state, and both
  `relax_branches` and `emit_function_to_memory` (external binemit code,
  not under the orchestrator sources) report exactly this record. -/
  measure : Func → CodeInfo
  /-- Modelled from the spec: the byte at a given offset of the emitted
  artifact; emission writes exactly `total_size` bytes
  (`emit_function_to_memory` is external binemit code). -/
  byte_at : Func → Nat → Nat
  /-- `verifier::verify_context(&func, &cfg, &domtree, fisa, &mut errors)`:
  the violation list collected by one structural check. -/
  verify_context : Func → Nat → Nat → List Nat
  /-- `verifier::verify_locations(isa, &func, None, &mut errors)`: the
  violation list collected by one location check. -/
  verify_locations_fn : Func → List Nat
  /-- `TargetIsa::default_call_conv()` -/
  default_call_conv : CallConv
  /-- Modelled from the spec: executing the emitted bytes per the target
  calling convention yields the function's boolean result (the execution
  harness is out-of-scope OS glue). -/
  exec_fn : List Nat → Bool

/-- Modelled from the spec: the bytes `emit_function_to_memory` writes —
exactly `total_size` bytes of the artifact. -/
def Isa.emit_bytes (isa : Isa) (f : Func) : List Nat :=
  (List.range (isa.measure f).total_size).map (isa.byte_at f)

/-- `Context`: the persistent compilation state — the function being
compiled and its derived analyses (`context.rs` lines 38-53). -/
structure Context where
  func : Func
  cfg : Nat
  domtree : Nat
  regalloc : Nat
  loop_analysis : Nat
deriving DecidableEq, Repr

/-- `Context::for_function`: fresh analyses around an existing function. -/
def Context.for_function (func : Func) : Context :=
  { func := func
    cfg := clearedAnalysis
    domtree := clearedAnalysis
    regalloc := clearedAnalysis
    loop_analysis := clearedAnalysis }

/-- `Context::new()`: `for_function(Function::new())`. -/
def Context.new : Context :=
  Context.for_function Func.new

/-- `Context::clear`: clear every owned structure (function, CFG, dominator
tree, register-allocation state, loop analysis). -/
def Context.clear (_c : Context) : Context :=
  { func := Func.new
    cfg := clearedAnalysis
    domtree := clearedAnalysis
    regalloc := clearedAnalysis
    loop_analysis := clearedAnalysis }

/-- `Context::verify`: run `verify_context`, succeed exactly when the
collected violation list is empty, otherwise return the whole list. -/
def Context.verify (isa : Isa) (c : Context) : Except (List Nat) Unit :=
  let errors := isa.verify_context c.func c.cfg c.domtree
  if errors.isEmpty then Except.ok () else Except.error errors

/-- `Context::verify_if`: run the verifier only when `enable_verifier` is
set; records a `verify` event exactly when the check actually runs. -/
def Context.verify_if (isa : Isa) (c : Context) : List Ev × Except CodegenError Unit :=
  if isa.flags.enable_verifier then
    match Context.verify isa c with
    | Except.ok _ => ([Ev.verify], Except.ok ())
    | Except.error es => ([Ev.verify], Except.error (CodegenError.verifier es))
  else ([], Except.ok ())

/-- `Context::verify_locations`: same shape as `verify` over the
location-assignment checker. -/
def Context.verify_locations (isa : Isa) (c : Context) : Except (List Nat) Unit :=
  let errors := isa.verify_locations_fn c.func
  if errors.isEmpty then Except.ok () else Except.error errors

/-- `Context::verify_locations_if`: flag-gated location check. -/
def Context.verify_locations_if (isa : Isa) (c : Context) : List Ev × Except CodegenError Unit :=
  if isa.flags.enable_verifier then
    match Context.verify_locations isa c with
    | Except.ok _ => ([Ev.verifyLocations], Except.ok ())
    | Except.error es => ([Ev.verifyLocations], Except.error (CodegenError.verifier es))
  else ([], Except.ok ())

/-- A pass that mutated the context to `c`, logged its own event `ev`, and
then runs the flag-gated structural re-verification. -/
def afterPass (isa : Isa) (ev : Ev) (c : Context) :
    Context × List Ev × Except CodegenError Unit :=
  let p := Context.verify_if isa c
  (c, ev :: p.1, p.2)

/-- As `afterPass`, but for the passes that re-run both the structural and
the location verification (`prologue_epilogue`, `shrink_instructions`,
`relax_branches`). -/
def afterPass2 (isa : Isa) (ev : Ev) (c : Context) :
    Context × List Ev × Except CodegenError Unit :=
  match Context.verify_if isa c with
  | (t, Except.error e) => (c, ev :: t, Except.error e)
  | (t, Except.ok _) =>
    let p := Context.verify_locations_if isa c
    (c, ev :: (t ++ p.1), p.2)

/-- `Context::preopt`: `do_preopt(&mut func, &mut cfg)` then `verify_if`. -/
def Context.preopt (isa : Isa) (c : Context) :
    Context × List Ev × Except CodegenError Unit :=
  let p := isa.do_preopt c.func c.cfg
  afterPass isa Ev.preopt { c with func := p.1, cfg := p.2 }

/-- `Context::canonicalize_nans`: rewrite then `verify_if`. -/
def Context.canonicalize_nans (isa : Isa) (c : Context) :
    Context × List Ev × Except CodegenError Unit :=
  afterPass isa Ev.nanCanon { c with func := isa.do_nan_canonicalization c.func }

/-- `Context::legalize`: unconditionally clear the dominator tree and the
loop analysis, run `legalize_function(&mut func, &mut cfg, isa)`, then
`verify_if` (`context.rs` lines 246-253). -/
def Context.legalize (isa : Isa) (c : Context) :
    Context × List Ev × Except CodegenError Unit :=
  let c0 := { c with domtree := clearedAnalysis, loop_analysis := clearedAnalysis }
  let p := isa.legalize_function c0.func c0.cfg
  afterPass isa Ev.legalize { c0 with func := p.1, cfg := p.2 }

/-- `Context::postopt`: `do_postopt(&mut func, isa)` then `verify_if`. -/
def Context.postopt (isa : Isa) (c : Context) :
    Context × List Ev × Except CodegenError Unit :=
  afterPass isa Ev.postopt { c with func := isa.do_postopt c.func }

/-- `Context::compute_cfg`: recompute the CFG from the function; no
verification. -/
def Context.compute_cfg (isa : Isa) (c : Context) :
    Context × List Ev × Except CodegenError Unit :=
  ({ c with cfg := isa.cfg_compute c.func }, [Ev.computeCfg], Except.ok ())

/-- `Context::compute_domtree`: recompute the dominator tree from the CFG;
no verification (`context.rs` lines 267-270). -/
def Context.compute_domtree (isa : Isa) (c : Context) :
    Context × List Ev × Except CodegenError Unit :=
  ({ c with domtree := isa.domtree_compute c.func c.cfg }, [Ev.computeDomtree], Except.ok ())

/-- `Context::compute_loop_analysis`: recompute the loop analysis from the
CFG and dominator tree; no verification (`context.rs` lines 272-276). -/
def Context.compute_loop_analysis (isa : Isa) (c : Context) :
    Context × List Ev × Except CodegenError Unit :=
  ({ c with loop_analysis := isa.loop_compute c.func c.cfg c.domtree },
    [Ev.computeLoopAnalysis], Except.ok ())

/-- `Context::licm`: loop-invariant code motion then `verify_if`. -/
def Context.licm (isa : Isa) (c : Context) :
    Context × List Ev × Except CodegenError Unit :=
  let q := isa.do_licm c.func c.cfg c.domtree c.loop_analysis
  afterPass isa Ev.licm
    { c with func := q.1, cfg := q.2.1, domtree := q.2.2.1, loop_analysis := q.2.2.2 }

/-- `Context::simple_gvn`: global value numbering then `verify_if`. -/
def Context.simple_gvn (isa : Isa) (c : Context) :
    Context × List Ev × Except CodegenError Unit :=
  let q := isa.do_simple_gvn c.func c.domtree
  afterPass isa Ev.gvn { c with func := q.1, domtree := q.2 }

/-- `Context::eliminate_unreachable_code`: the pass then `verify_if`. -/
def Context.eliminate_unreachable_code (isa : Isa) (c : Context) :
    Context × List Ev × Except CodegenError Unit :=
  let q := isa.eliminate_unreachable_code_fn c.func c.cfg c.domtree
  afterPass isa Ev.uce { c with func := q.1, cfg := q.2 }

/-- `Context::dce`: dead-code elimination then `verify_if`. -/
def Context.dce (isa : Isa) (c : Context) :
    Context × List Ev × Except CodegenError Unit :=
  let q := isa.do_dce c.func c.domtree
  afterPass isa Ev.dce { c with func := q.1, domtree := q.2 }

/-- `Context::regalloc` (named `regalloc_op` because the state structure
already has a `regalloc` field, as in the source): run the register
allocator; NO verification follows (`context.rs` lines 311-315). -/
def Context.regalloc_op (isa : Isa) (c : Context) :
    Context × List Ev × Except CodegenError Unit :=
  match isa.regalloc_run c.regalloc c.func c.cfg c.domtree with
  | Except.error e => (c, [Ev.regalloc], Except.error e)
  | Except.ok q =>
    ({ c with regalloc := q.1, func := q.2.1, domtree := q.2.2 },
      [Ev.regalloc], Except.ok ())

/-- `Context::prologue_epilogue`: `isa.prologue_epilogue(&mut func)?`, then
`verify_if` and `verify_locations_if` (`context.rs` lines 317-323). -/
def Context.prologue_epilogue (isa : Isa) (c : Context) :
    Context × List Ev × Except CodegenError Unit :=
  match isa.prologue_epilogue_fn c.func with
  | Except.error e => (c, [Ev.prologueEpilogue], Except.error e)
  | Except.ok f => afterPass2 isa Ev.prologueEpilogue { c with func := f }

/-- `Context::shrink_instructions`: the shrinking pass, then both
verifications. -/
def Context.shrink_instructions (isa : Isa) (c : Context) :
    Context × List Ev × Except CodegenError Unit :=
  afterPass2 isa Ev.shrink { c with func := isa.shrink_fn c.func }

/-- `Context::relax_branches`: the fallible relaxation pass producing the
final `CodeInfo`, then both verifications (`context.rs` lines 335-340). -/
def Context.relax_branches (isa : Isa) (c : Context) :
    Context × List Ev × Except CodegenError CodeInfo :=
  match isa.relax_fn c.func c.cfg c.domtree with
  | Except.error e => (c, [Ev.relaxBranches], Except.error e)
  | Except.ok q =>
    let c1 : Context := { c with func := q.1, cfg := q.2.1, domtree := q.2.2 }
    let info := isa.measure c1.func
    match Context.verify_if isa c1 with
    | (t, Except.error e) => (c1, Ev.relaxBranches :: t, Except.error e)
    | (t, Except.ok _) =>
      match Context.verify_locations_if isa c1 with
      | (t2, Except.error e) => (c1, Ev.relaxBranches :: (t ++ t2), Except.error e)
      | (t2, Except.ok _) => (c1, Ev.relaxBranches :: (t ++ t2), Except.ok info)

/-- Sequencing of two pipeline steps: exactly the `?` operator — a failing
step returns its failure at once and the continuation never runs. -/
def seqStep {α : Type} (r : Context × List Ev × Except CodegenError Unit)
    (f : Context → Context × List Ev × Except CodegenError α) :
    Context × List Ev × Except CodegenError α :=
  match r with
  | (c, t, Except.error e) => (c, t, Except.error e)
  | (c, t, Except.ok _) =>
    match f c with
    | (c2, t2, r2) => (c2, t ++ t2, r2)

/-- A pipeline position whose gate is closed: nothing runs. -/
def skipStep (c : Context) : Context × List Ev × Except CodegenError Unit :=
  (c, [], Except.ok ())

/-- The initial `self.verify_if(isa)?` of `compile`, lifted to a step. -/
def Context.verify_if_op (isa : Isa) (c : Context) :
    Context × List Ev × Except CodegenError Unit :=
  let p := Context.verify_if isa c
  (c, p.1, p.2)

/-- `Context::compile` (`context.rs` lines 123-155): the tier-gated pass
pipeline, fail-fast via `seqStep`. -/
def Context.compile (isa : Isa) (c : Context) :
    Context × List Ev × Except CodegenError CodeInfo :=
  seqStep (Context.verify_if_op isa c) fun c =>
  seqStep (Context.compute_cfg isa c) fun c =>
  seqStep (if isa.flags.opt_level ≠ OptLevel.Fastest then Context.preopt isa c else skipStep c) fun c =>
  seqStep (if isa.flags.enable_nan_canonicalization then Context.canonicalize_nans isa c else skipStep c) fun c =>
  seqStep (Context.legalize isa c) fun c =>
  seqStep (if isa.flags.opt_level ≠ OptLevel.Fastest then Context.postopt isa c else skipStep c) fun c =>
  seqStep (if isa.flags.opt_level = OptLevel.Best then
            seqStep (Context.compute_domtree isa c) fun c =>
            seqStep (Context.compute_loop_analysis isa c) fun c =>
            seqStep (Context.licm isa c) fun c =>
            Context.simple_gvn isa c
          else skipStep c) fun c =>
  seqStep (Context.compute_domtree isa c) fun c =>
  seqStep (Context.eliminate_unreachable_code isa c) fun c =>
  seqStep (if isa.flags.opt_level ≠ OptLevel.Fastest then Context.dce isa c else skipStep c) fun c =>
  seqStep (Context.regalloc_op isa c) fun c =>
  seqStep (Context.prologue_epilogue isa c) fun c =>
  seqStep (if isa.flags.opt_level = OptLevel.Best then Context.shrink_instructions isa c else skipStep c) fun c =>
  Context.relax_branches isa c

/-- `Context::emit_to_memory` (`context.rs` lines 168-180): takes the
context immutably (`&self`), writes the artifact bytes and returns the
measured `CodeInfo`; the first component returns the context as the call
leaves it — always unchanged. -/
def Context.emit_to_memory (isa : Isa) (c : Context) : Context × List Nat × CodeInfo :=
  (c, Isa.emit_bytes isa c.func, isa.measure c.func)

/-- `Context::compile_and_emit` (`context.rs` lines 98-114): compile, grow
the buffer by `total_size` zero bytes (`mem.resize`), then overwrite the
appended region with the emitted bytes at offset `old_len`. -/
def Context.compile_and_emit (isa : Isa) (c : Context) (mem : List Nat) :
    Context × List Ev × Except CodegenError (CodeInfo × List Nat) :=
  match Context.compile isa c with
  | (c1, t, Except.error e) => (c1, t, Except.error e)
  | (c1, t, Except.ok info) =>
    let old_len := mem.length
    let mem1 := mem ++ List.replicate info.total_size 0
    let q := Context.emit_to_memory isa c1
    let mem2 := mem1.take old_len ++ q.2.1 ++ mem1.drop (old_len + q.2.1.length)
    (c1, t, Except.ok (info, mem2))

/-- The trace of structural-verification events one `verify_if` call
contributes. -/
def verifyEv (fl : Flags) : List Ev :=
  if fl.enable_verifier then [Ev.verify] else []

/-- The trace of location-verification events one `verify_locations_if`
call contributes. -/
def verifyLocEv (fl : Flags) : List Ev :=
  if fl.enable_verifier then [Ev.verifyLocations] else []

/-- Events of a pass followed by the flag-gated structural check. -/
def stageEv (fl : Flags) (e : Ev) : List Ev :=
  e :: verifyEv fl

/-- Events of a pass followed by both flag-gated checks. -/
def stage2Ev (fl : Flags) (e : Ev) : List Ev :=
  e :: (verifyEv fl ++ verifyLocEv fl)

/-- Events of the best-tier-only block: dominator tree, loop analysis,
LICM, GVN. -/
def bestBlockEv (fl : Flags) : List Ev :=
  [Ev.computeDomtree] ++ ([Ev.computeLoopAnalysis] ++ (stageEv fl Ev.licm ++ stageEv fl Ev.gvn))

/-- The pass/verification schedule the spec prescribes for `compile`,
written from the spec's tier-gated ordering (steps 1-13 of the compile
algorithm). -/
def compileExpected (fl : Flags) : List Ev :=
  verifyEv fl ++
  ([Ev.computeCfg] ++
  ((if fl.opt_level ≠ OptLevel.Fastest then stageEv fl Ev.preopt else []) ++
  ((if fl.enable_nan_canonicalization then stageEv fl Ev.nanCanon else []) ++
  (stageEv fl Ev.legalize ++
  ((if fl.opt_level ≠ OptLevel.Fastest then stageEv fl Ev.postopt else []) ++
  ((if fl.opt_level = OptLevel.Best then bestBlockEv fl else []) ++
  ([Ev.computeDomtree] ++
  (stageEv fl Ev.uce ++
  ((if fl.opt_level ≠ OptLevel.Fastest then stageEv fl Ev.dce else []) ++
  ([Ev.regalloc] ++
  (stage2Ev fl Ev.prologueEpilogue ++
  ((if fl.opt_level = OptLevel.Best then stage2Ev fl Ev.shrink else []) ++
  stage2Ev fl Ev.relaxBranches))))))))))))

/-- A step's trace is always a prefix of its full schedule, and equals it
whenever the step succeeds. -/
def TraceSpec {α : Type} (r : Context × List Ev × Except CodegenError α)
    (A : List Ev) : Prop :=
  r.2.1 <+: A ∧ ∀ a, r.2.2 = Except.ok a → r.2.1 = A

/-- A successful pipeline result's `CodeInfo` is the measure of the final
function state. -/
def MeasureSpec (isa : Isa) (r : Context × List Ev × Except CodegenError CodeInfo) : Prop :=
  ∀ info, r.2.2 = Except.ok info → info = isa.measure r.1.func

/-- In trace `t`, every occurrence of `e` is immediately followed by `e2`. -/
def followedBy (t : List Ev) (e e2 : Ev) : Prop :=
  ∀ i ∈ List.range t.length, t.get? i = some e → t.get? (i + 1) = some e2

/-- Decidability of the adjacency property, so concrete traces can be
checked by evaluation. -/
instance (t : List Ev) (e e2 : Ev) : Decidable (followedBy t e e2) := by
  unfold followedBy
  infer_instance

/-- The signature guard of `FunctionRunner::run`: zero parameters and a
single boolean return (`function_runner.rs` lines 41-43; the `unwrap` on
`first()` is guarded by the length check). -/
def sigCheck (s : Signature) : Bool :=
  s.params.isEmpty && s.returns.length == 1 &&
    (match s.returns.head? with
     | some p => p.value_type.is_bool
     | none => false)

/-- Error message of the signature guard. -/
def sigMsg : String :=
  "Functions must have a signature like: () -> boolean"

/-- Error message of the calling-convention guard. -/
def ccMsg : String :=
  "Functions only run on the host's default calling convention; remove the specified calling convention in the function signature to use the host's default."

/-- `FunctionRunner`: a function plus the host ISA to run it on. -/
structure FunctionRunner where
  function : Func
  isa : Isa

/-- `FunctionRunner::run` (`function_runner.rs` lines 39-90): clone the
stored function, reject bad signatures and foreign calling conventions
before doing any work, then compile in a fresh `Context`, emit, and
execute.  The first result component is the runner as the call leaves it
(the function is cloned, so it is returned unchanged); the event list is
the trace of compilation passes actually run. -/
def FunctionRunner.run (r : FunctionRunner) :
    FunctionRunner × List Ev × Except String Unit :=
  let func := r.function
  if !sigCheck func.signature then
    (r, [], Except.error sigMsg)
  else if func.signature.call_conv ≠ r.isa.default_call_conv
      && func.signature.call_conv ≠ CallConv.Fast then
    (r, [], Except.error ccMsg)
  else
    let c := { Context.new with func := func }
    match Context.compile r.isa c with
    | (_, t, Except.error e) => (r, t, Except.error e.to_string)
    | (c1, t, Except.ok _info) =>
      let q := Context.emit_to_memory r.isa c1
      if r.isa.exec_fn q.2.1 then (r, t, Except.ok ())
      else (r, t, Except.error ("Failed: " ++ c1.func.name))

/-- A concrete target whose external passes are all identities and whose
verifier finds no violations; used to evaluate the pipeline on explicit
inputs. -/
def trivIsa (fl : Flags) : Isa :=
  { flags := fl
    do_preopt := fun f g => (f, g)
    do_nan_canonicalization := fun f => f
    legalize_function := fun f g => (f, g)
    do_postopt := fun f => f
    cfg_compute := fun _ => 1
    domtree_compute := fun _ _ => 1
    loop_compute := fun _ _ _ => 1
    do_licm := fun f g d l => (f, g, d, l)
    do_simple_gvn := fun f d => (f, d)
    eliminate_unreachable_code_fn := fun f g _ => (f, g)
    do_dce := fun f d => (f, d)
    regalloc_run := fun ra f _ d => Except.ok (ra, f, d)
    prologue_epilogue_fn := fun f => Except.ok f
    shrink_fn := fun f => f
    relax_fn := fun f g d => Except.ok (f, g, d)
    measure := fun _ => { code_size := 4, jumptables_size := 0, rodata_size := 0, total_size := 4 }
    byte_at := fun _ _ => 0
    verify_context := fun _ _ _ => []
    verify_locations_fn := fun _ => []
    default_call_conv := CallConv.SystemV
    exec_fn := fun _ => true }

/-- `trivIsa` with a verifier that reports two structural violations and
one location violation; used to exercise the failure paths. -/
def failVerifyIsa (fl : Flags) : Isa :=
  { trivIsa fl with
    verify_context := fun _ _ _ => [7, 8]
    verify_locations_fn := fun _ => [9] }

/-- Run a list of pipeline steps in order with the fail-fast `seqStep`
sequencing: the first failing step short-circuits the rest. -/
def runSteps :
    List (Context → Context × List Ev × Except CodegenError Unit) → Context →
      Context × List Ev × Except CodegenError Unit
  | [], c => (c, [], Except.ok ())
  | s :: L, c => seqStep (s c) (runSteps L)

/-- The unit-result steps of `Context.compile`, in pipeline order, with
each tier/flag gate attached to its own step; the final fallible step —
branch relaxation, which produces the `CodeInfo` — is the tail of the
chain.  `compile_eq_flat` proves this list composes to exactly
`Context.compile`. -/
def compileStepsFlat (isa : Isa) :
    List (Context → Context × List Ev × Except CodegenError Unit) :=
  [fun c => Context.verify_if_op isa c,
   fun c => Context.compute_cfg isa c,
   fun c => if isa.flags.opt_level ≠ OptLevel.Fastest then Context.preopt isa c else skipStep c,
   fun c => if isa.flags.enable_nan_canonicalization then Context.canonicalize_nans isa c else skipStep c,
   fun c => Context.legalize isa c,
   fun c => if isa.flags.opt_level ≠ OptLevel.Fastest then Context.postopt isa c else skipStep c,
   fun c => if isa.flags.opt_level = OptLevel.Best then Context.compute_domtree isa c else skipStep c,
   fun c => if isa.flags.opt_level = OptLevel.Best then Context.compute_loop_analysis isa c else skipStep c,
   fun c => if isa.flags.opt_level = OptLevel.Best then Context.licm isa c else skipStep c,
   fun c => if isa.flags.opt_level = OptLevel.Best then Context.simple_gvn isa c else skipStep c,
   fun c => Context.compute_domtree isa c,
   fun c => Context.eliminate_unreachable_code isa c,
   fun c => if isa.flags.opt_level ≠ OptLevel.Fastest then Context.dce isa c else skipStep c,
   fun c => Context.regalloc_op isa c,
   fun c => Context.prologue_epilogue isa c,
   fun c => if isa.flags.opt_level = OptLevel.Best then Context.shrink_instructions isa c else skipStep c]

/-- `trivIsa` at the fastest tier with a register allocator that fails
with an allocation error; used to exercise a mid-pipeline failure. -/
def regallocFailIsa : Isa :=
  { trivIsa ⟨OptLevel.Fastest, false, false⟩ with
    regalloc_run := fun _ _ _ _ => Except.error (CodegenError.other 3) }

/-- A runner whose function has a non-boolean-returning signature (no
returns at all), for exercising the signature guard. -/
def runnerBadSig : FunctionRunner :=
  { function :=
      { name := "f"
        signature := { params := [], returns := [], call_conv := CallConv.SystemV }
        body := 0 }
    isa := trivIsa ⟨OptLevel.Fastest, false, false⟩ }

/-- A runner whose function has a valid signature but a calling convention
that is neither the host default (`SystemV` for `trivIsa`) nor `Fast`. -/
def runnerBadCc : FunctionRunner :=
  { function :=
      { name := "g"
        signature :=
          { params := [], returns := [{ value_type := ValType.b1 }], call_conv := CallConv.Cold }
        body := 0 }
    isa := trivIsa ⟨OptLevel.Fastest, false, false⟩ }

theorem prefix_cons {α : Type} {a : α} {l₁ l₂ : List α} (h : l₁ <+: l₂) :
    a :: l₁ <+: a :: l₂ := by
  obtain ⟨s, hs⟩ := h
  exact ⟨s, by rw [List.cons_append, hs]⟩

theorem prefix_append_both {α : Type} {A l₁ l₂ : List α} (h : l₁ <+: l₂) :
    A ++ l₁ <+: A ++ l₂ := by
  obtain ⟨s, hs⟩ := h
  exact ⟨s, by rw [List.append_assoc, hs]⟩

theorem prefix_extend {α : Type} {l₁ A B : List α} (h : l₁ <+: A) : l₁ <+: A ++ B :=
  h.trans (List.prefix_append A B)

theorem traceSpec_of_eq {α : Type} {r : Context × List Ev × Except CodegenError α}
    {A : List Ev} (h : r.2.1 = A) : TraceSpec r A :=
  ⟨by rw [h], fun _ _ => h⟩

theorem verify_if_trace (isa : Isa) (c : Context) :
    (Context.verify_if isa c).1 = verifyEv isa.flags := by
  unfold Context.verify_if verifyEv
  by_cases h : isa.flags.enable_verifier <;> simp [h]
  cases Context.verify isa c <;> rfl

theorem verify_locations_if_trace (isa : Isa) (c : Context) :
    (Context.verify_locations_if isa c).1 = verifyLocEv isa.flags := by
  unfold Context.verify_locations_if verifyLocEv
  by_cases h : isa.flags.enable_verifier <;> simp [h]
  cases Context.verify_locations isa c <;> rfl

theorem traceSpec_verify_if_op (isa : Isa) (c : Context) :
    TraceSpec (Context.verify_if_op isa c) (verifyEv isa.flags) :=
  traceSpec_of_eq (verify_if_trace isa c)

theorem traceSpec_compute_cfg (isa : Isa) (c : Context) :
    TraceSpec (Context.compute_cfg isa c) [Ev.computeCfg] :=
  traceSpec_of_eq rfl

theorem traceSpec_compute_domtree (isa : Isa) (c : Context) :
    TraceSpec (Context.compute_domtree isa c) [Ev.computeDomtree] :=
  traceSpec_of_eq rfl

theorem traceSpec_compute_loop_analysis (isa : Isa) (c : Context) :
    TraceSpec (Context.compute_loop_analysis isa c) [Ev.computeLoopAnalysis] :=
  traceSpec_of_eq rfl

theorem afterPass_trace (isa : Isa) (ev : Ev) (c : Context) :
    (afterPass isa ev c).2.1 = stageEv isa.flags ev := by
  unfold afterPass stageEv
  simp only [verify_if_trace]

theorem traceSpec_afterPass (isa : Isa) (ev : Ev) (c : Context) :
    TraceSpec (afterPass isa ev c) (stageEv isa.flags ev) :=
  traceSpec_of_eq (afterPass_trace isa ev c)

theorem traceSpec_preopt (isa : Isa) (c : Context) :
    TraceSpec (Context.preopt isa c) (stageEv isa.flags Ev.preopt) :=
  traceSpec_afterPass isa Ev.preopt _

theorem traceSpec_canonicalize_nans (isa : Isa) (c : Context) :
    TraceSpec (Context.canonicalize_nans isa c) (stageEv isa.flags Ev.nanCanon) :=
  traceSpec_afterPass isa Ev.nanCanon _

theorem traceSpec_legalize (isa : Isa) (c : Context) :
    TraceSpec (Context.legalize isa c) (stageEv isa.flags Ev.legalize) :=
  traceSpec_afterPass isa Ev.legalize _

theorem traceSpec_postopt (isa : Isa) (c : Context) :
    TraceSpec (Context.postopt isa c) (stageEv isa.flags Ev.postopt) :=
  traceSpec_afterPass isa Ev.postopt _

theorem traceSpec_licm (isa : Isa) (c : Context) :
    TraceSpec (Context.licm isa c) (stageEv isa.flags Ev.licm) :=
  traceSpec_afterPass isa Ev.licm _

theorem traceSpec_simple_gvn (isa : Isa) (c : Context) :
    TraceSpec (Context.simple_gvn isa c) (stageEv isa.flags Ev.gvn) :=
  traceSpec_afterPass isa Ev.gvn _

theorem traceSpec_uce (isa : Isa) (c : Context) :
    TraceSpec (Context.eliminate_unreachable_code isa c) (stageEv isa.flags Ev.uce) :=
  traceSpec_afterPass isa Ev.uce _

theorem traceSpec_dce (isa : Isa) (c : Context) :
    TraceSpec (Context.dce isa c) (stageEv isa.flags Ev.dce) :=
  traceSpec_afterPass isa Ev.dce _

theorem traceSpec_afterPass2 (isa : Isa) (ev : Ev) (c : Context) :
    TraceSpec (afterPass2 isa ev c) (stage2Ev isa.flags ev) := by
  unfold afterPass2 stage2Ev
  rcases hv : Context.verify_if isa c with ⟨t, rv⟩
  have ht : t = verifyEv isa.flags := by
    have h0 := verify_if_trace isa c
    rw [hv] at h0
    exact h0
  cases rv with
  | error e =>
    simp only [hv]
    refine ⟨prefix_cons ?_, ?_⟩
    · rw [ht]
      exact prefix_extend List.prefix_rfl
    · intro a ha
      cases ha
  | ok u =>
    simp only [hv]
    apply traceSpec_of_eq
    have hl := verify_locations_if_trace isa c
    simp only [ht, hl]

theorem traceSpec_regalloc_op (isa : Isa) (c : Context) :
    TraceSpec (Context.regalloc_op isa c) [Ev.regalloc] := by
  unfold Context.regalloc_op
  cases isa.regalloc_run c.regalloc c.func c.cfg c.domtree with
  | error e => exact traceSpec_of_eq rfl
  | ok q => exact traceSpec_of_eq rfl

theorem traceSpec_prologue_epilogue (isa : Isa) (c : Context) :
    TraceSpec (Context.prologue_epilogue isa c) (stage2Ev isa.flags Ev.prologueEpilogue) := by
  unfold Context.prologue_epilogue
  cases isa.prologue_epilogue_fn c.func with
  | error e =>
    refine ⟨⟨verifyEv isa.flags ++ verifyLocEv isa.flags, rfl⟩, ?_⟩
    intro a ha
    cases ha
  | ok f => exact traceSpec_afterPass2 isa Ev.prologueEpilogue _

theorem traceSpec_shrink_instructions (isa : Isa) (c : Context) :
    TraceSpec (Context.shrink_instructions isa c) (stage2Ev isa.flags Ev.shrink) :=
  traceSpec_afterPass2 isa Ev.shrink _

theorem traceSpec_relax_branches (isa : Isa) (c : Context) :
    TraceSpec (Context.relax_branches isa c) (stage2Ev isa.flags Ev.relaxBranches) := by
  unfold Context.relax_branches
  cases isa.relax_fn c.func c.cfg c.domtree with
  | error e =>
    refine ⟨⟨verifyEv isa.flags ++ verifyLocEv isa.flags, rfl⟩, ?_⟩
    intro a ha
    cases ha
  | ok q =>
    rcases hv : Context.verify_if isa { c with func := q.1, cfg := q.2.1, domtree := q.2.2 }
      with ⟨t, rv⟩
    have ht : t = verifyEv isa.flags := by
      have h0 := verify_if_trace isa { c with func := q.1, cfg := q.2.1, domtree := q.2.2 }
      rw [hv] at h0
      exact h0
    cases rv with
    | error e =>
      simp only [hv]
      refine ⟨prefix_cons ?_, ?_⟩
      · rw [ht]
        exact prefix_extend List.prefix_rfl
      · intro a ha
        cases ha
    | ok u =>
      rcases hl : Context.verify_locations_if isa { c with func := q.1, cfg := q.2.1, domtree := q.2.2 }
        with ⟨t2, rl⟩
      have ht2 : t2 = verifyLocEv isa.flags := by
        have h0 := verify_locations_if_trace isa { c with func := q.1, cfg := q.2.1, domtree := q.2.2 }
        rw [hl] at h0
        exact h0
      cases rl with
      | error e =>
        simp only [hv, hl]
        apply traceSpec_of_eq
        simp only [ht, ht2]
        rfl
      | ok u2 =>
        simp only [hv, hl]
        apply traceSpec_of_eq
        simp only [ht, ht2]
        rfl

theorem traceSpec_skip (c : Context) : TraceSpec (skipStep c) [] :=
  traceSpec_of_eq rfl

theorem traceSpec_ite {p : Prop} [Decidable p]
    {x y : Context × List Ev × Except CodegenError Unit} {A : List Ev}
    (hx : TraceSpec x A) (hy : TraceSpec y []) :
    TraceSpec (if p then x else y) (if p then A else []) := by
  by_cases h : p
  · simp only [h, if_true]
    exact hx
  · simp only [h, if_false]
    exact hy

theorem seqStep_spec {α : Type} {r : Context × List Ev × Except CodegenError Unit}
    {f : Context → Context × List Ev × Except CodegenError α} {A B : List Ev}
    (hr : TraceSpec r A) (hf : ∀ c, TraceSpec (f c) B) :
    TraceSpec (seqStep r f) (A ++ B) := by
  rcases r with ⟨c, t, res⟩
  cases res with
  | error e =>
    refine ⟨prefix_extend hr.1, ?_⟩
    intro a ha
    cases ha
  | ok u =>
    have ht : t = A := hr.2 u rfl
    rcases hfc : f c with ⟨c2, t2, r2⟩
    have hspec := hf c
    rw [hfc] at hspec
    have hpre : t2 <+: B := hspec.1
    have heq : ∀ a, r2 = Except.ok a → t2 = B := fun a ha => hspec.2 a ha
    unfold seqStep
    simp only [hfc]
    refine ⟨?_, ?_⟩
    · show t ++ t2 <+: A ++ B
      rw [ht]
      exact prefix_append_both hpre
    · intro a ha
      show t ++ t2 = A ++ B
      rw [ht, heq a ha]

theorem traceSpec_bestBlock (isa : Isa) (c : Context) :
    TraceSpec (seqStep (Context.compute_domtree isa c) fun c =>
               seqStep (Context.compute_loop_analysis isa c) fun c =>
               seqStep (Context.licm isa c) fun c =>
               Context.simple_gvn isa c) (bestBlockEv isa.flags) := by
  unfold bestBlockEv
  refine seqStep_spec (traceSpec_compute_domtree isa c) fun c1 => ?_
  refine seqStep_spec (traceSpec_compute_loop_analysis isa c1) fun c2 => ?_
  refine seqStep_spec (traceSpec_licm isa c2) fun c3 => ?_
  exact traceSpec_simple_gvn isa c3

theorem compile_traceSpec (isa : Isa) (c : Context) :
    TraceSpec (Context.compile isa c) (compileExpected isa.flags) := by
  unfold Context.compile compileExpected
  refine seqStep_spec (traceSpec_verify_if_op isa c) fun c1 => ?_
  refine seqStep_spec (traceSpec_compute_cfg isa c1) fun c2 => ?_
  refine seqStep_spec (traceSpec_ite (traceSpec_preopt isa c2) (traceSpec_skip c2)) fun c3 => ?_
  refine seqStep_spec (traceSpec_ite (traceSpec_canonicalize_nans isa c3) (traceSpec_skip c3)) fun c4 => ?_
  refine seqStep_spec (traceSpec_legalize isa c4) fun c5 => ?_
  refine seqStep_spec (traceSpec_ite (traceSpec_postopt isa c5) (traceSpec_skip c5)) fun c6 => ?_
  refine seqStep_spec (traceSpec_ite (traceSpec_bestBlock isa c6) (traceSpec_skip c6)) fun c7 => ?_
  refine seqStep_spec (traceSpec_compute_domtree isa c7) fun c8 => ?_
  refine seqStep_spec (traceSpec_uce isa c8) fun c9 => ?_
  refine seqStep_spec (traceSpec_ite (traceSpec_dce isa c9) (traceSpec_skip c9)) fun c10 => ?_
  refine seqStep_spec (traceSpec_regalloc_op isa c10) fun c11 => ?_
  refine seqStep_spec (traceSpec_prologue_epilogue isa c11) fun c12 => ?_
  refine seqStep_spec (traceSpec_ite (traceSpec_shrink_instructions isa c12) (traceSpec_skip c12)) fun c13 => ?_
  exact traceSpec_relax_branches isa c13

theorem seqStep_measure {isa : Isa} {r : Context × List Ev × Except CodegenError Unit}
    {f : Context → Context × List Ev × Except CodegenError CodeInfo}
    (hf : ∀ c, MeasureSpec isa (f c)) : MeasureSpec isa (seqStep r f) := by
  rcases r with ⟨c, t, res⟩
  cases res with
  | error e =>
    intro info h
    cases h
  | ok u =>
    intro info h
    rcases hfc : f c with ⟨c2, t2, r2⟩
    have h2 := hf c
    rw [hfc] at h2
    unfold seqStep at h ⊢
    simp only [hfc] at h ⊢
    have hr2 : r2 = Except.ok info := h
    exact h2 info hr2

theorem measureSpec_relax (isa : Isa) (c : Context) :
    MeasureSpec isa (Context.relax_branches isa c) := by
  unfold Context.relax_branches
  cases isa.relax_fn c.func c.cfg c.domtree with
  | error e =>
    intro info h
    cases h
  | ok q =>
    rcases hv : Context.verify_if isa { c with func := q.1, cfg := q.2.1, domtree := q.2.2 }
      with ⟨t, rv⟩
    cases rv with
    | error e =>
      intro info h
      simp only [hv] at h
      cases h
    | ok u =>
      rcases hl : Context.verify_locations_if isa { c with func := q.1, cfg := q.2.1, domtree := q.2.2 }
        with ⟨t2, rl⟩
      cases rl with
      | error e =>
        intro info h
        simp only [hv, hl] at h
        cases h
      | ok u2 =>
        intro info h
        simp only [hv, hl] at h ⊢
        cases h
        rfl

theorem compile_measureSpec (isa : Isa) (c : Context) :
    MeasureSpec isa (Context.compile isa c) := by
  unfold Context.compile
  refine seqStep_measure fun c1 => ?_
  refine seqStep_measure fun c2 => ?_
  refine seqStep_measure fun c3 => ?_
  refine seqStep_measure fun c4 => ?_
  refine seqStep_measure fun c5 => ?_
  refine seqStep_measure fun c6 => ?_
  refine seqStep_measure fun c7 => ?_
  refine seqStep_measure fun c8 => ?_
  refine seqStep_measure fun c9 => ?_
  refine seqStep_measure fun c10 => ?_
  refine seqStep_measure fun c11 => ?_
  refine seqStep_measure fun c12 => ?_
  refine seqStep_measure fun c13 => ?_
  exact measureSpec_relax isa c13

/-- C1: for every target and context, a successful `compile` ran exactly
the tier-gated pass sequence the spec prescribes — flag-gated verification
first, then the CFG computation, preopt unless fastest, NaN
canonicalization only if enabled, legalization, postopt unless fastest,
the best-tier-only dominator-tree/loop-analysis/LICM/GVN block, the
unconditional dominator-tree recomputation followed by unreachable-code
elimination, DCE unless fastest, register allocation, prologue/epilogue
insertion, instruction shrinking at best only, and branch relaxation
last — interleaved with the flag-gated verification events. -/
theorem compile_pass_order (isa : Isa) (c : Context)
    (h : (Context.compile isa c).2.2.isOk = true) :
    (Context.compile isa c).2.1 = compileExpected isa.flags := by
  rcases hr : (Context.compile isa c).2.2 with e | info
  · rw [hr] at h
    simp [Except.isOk, Except.toBool] at h
  · exact (compile_traceSpec isa c).2 info hr

theorem compile_pass_order_witness :
    (Context.compile (trivIsa ⟨OptLevel.Best, true, true⟩) Context.new).2.1 =
      compileExpected (Flags.mk OptLevel.Best true true) :=
  compile_pass_order (trivIsa ⟨OptLevel.Best, true, true⟩) Context.new (by decide)

/-- C2 counterexample: at the best tier with the verifier enabled, it is
NOT the case that the dominator-tree computation, the loop-analysis
computation, LICM, and GVN are each immediately followed by a
verification step in `compile`'s trace: the dominator-tree computation is
followed by the loop-analysis computation instead. -/
theorem domtree_loop_not_verified_counterexample :
    ¬ (followedBy (Context.compile (trivIsa ⟨OptLevel.Best, false, true⟩) Context.new).2.1
         Ev.computeDomtree Ev.verify ∧
       followedBy (Context.compile (trivIsa ⟨OptLevel.Best, false, true⟩) Context.new).2.1
         Ev.computeLoopAnalysis Ev.verify ∧
       followedBy (Context.compile (trivIsa ⟨OptLevel.Best, false, true⟩) Context.new).2.1
         Ev.licm Ev.verify ∧
       followedBy (Context.compile (trivIsa ⟨OptLevel.Best, false, true⟩) Context.new).2.1
         Ev.gvn Ev.verify) := by
  decide

/-- C2 amended: at the best optimization tier with the verifier enabled,
LICM and GVN are each followed by a flag-gated verification step inside
`compile`, while the dominator-tree and loop-analysis computations are
not followed by a verification step. -/
theorem best_tier_verify_after_licm_gvn (isa : Isa) (c : Context)
    (hb : isa.flags.opt_level = OptLevel.Best)
    (hv : isa.flags.enable_verifier = true)
    (hok : (Context.compile isa c).2.2.isOk = true) :
    followedBy (Context.compile isa c).2.1 Ev.licm Ev.verify ∧
    followedBy (Context.compile isa c).2.1 Ev.gvn Ev.verify ∧
    ¬ followedBy (Context.compile isa c).2.1 Ev.computeDomtree Ev.verify ∧
    ¬ followedBy (Context.compile isa c).2.1 Ev.computeLoopAnalysis Ev.verify := by
  have ht : (Context.compile isa c).2.1 = compileExpected isa.flags :=
    compile_pass_order isa c hok
  rw [ht]
  rcases hfl : isa.flags with ⟨o, nanc, ver⟩
  rw [hfl] at hb hv
  have ho : o = OptLevel.Best := hb
  have hver : ver = true := hv
  subst ho
  subst hver
  cases nanc <;> decide

theorem best_tier_verify_after_licm_gvn_witness :
    followedBy (Context.compile (trivIsa ⟨OptLevel.Best, true, true⟩) Context.new).2.1
      Ev.licm Ev.verify ∧
    followedBy (Context.compile (trivIsa ⟨OptLevel.Best, true, true⟩) Context.new).2.1
      Ev.gvn Ev.verify ∧
    ¬ followedBy (Context.compile (trivIsa ⟨OptLevel.Best, true, true⟩) Context.new).2.1
      Ev.computeDomtree Ev.verify ∧
    ¬ followedBy (Context.compile (trivIsa ⟨OptLevel.Best, true, true⟩) Context.new).2.1
      Ev.computeLoopAnalysis Ev.verify :=
  best_tier_verify_after_licm_gvn (trivIsa ⟨OptLevel.Best, true, true⟩) Context.new
    rfl rfl (by decide)

/-- C3: for every target and every context state, `legalize` leaves the
dominator tree and the loop analysis in the cleared state (they are
cleared before the legalization pass runs, and the pass — which receives
only the function and the CFG — cannot repopulate them), and the function
and CFG are exactly the legalization pass's output on the incoming
function and CFG. -/
theorem legalize_clears_domtree_loop_analysis (isa : Isa) (c : Context) :
    (Context.legalize isa c).1.domtree = clearedAnalysis ∧
    (Context.legalize isa c).1.loop_analysis = clearedAnalysis ∧
    (Context.legalize isa c).1.func = (isa.legalize_function c.func c.cfg).1 ∧
    (Context.legalize isa c).1.cfg = (isa.legalize_function c.func c.cfg).2 :=
  ⟨rfl, rfl, rfl, rfl⟩

/-- C4: the register-allocation operation performs no verification — its
event trace is exactly the allocator run, with neither a structural nor a
location check — while a successful `prologue_epilogue` performs the pass
and then both the flag-gated structural verification and the flag-gated
location verification. -/
theorem regalloc_no_verify_prologue_epilogue_verifies (isa : Isa) (c : Context) :
    ((Context.regalloc_op isa c).2.1 = [Ev.regalloc] ∧
     Ev.verify ∉ (Context.regalloc_op isa c).2.1 ∧
     Ev.verifyLocations ∉ (Context.regalloc_op isa c).2.1) ∧
    ((Context.prologue_epilogue isa c).2.2 = Except.ok () →
      (Context.prologue_epilogue isa c).2.1 =
        Ev.prologueEpilogue :: (verifyEv isa.flags ++ verifyLocEv isa.flags)) := by
  have htr : (Context.regalloc_op isa c).2.1 = [Ev.regalloc] := by
    unfold Context.regalloc_op
    cases isa.regalloc_run c.regalloc c.func c.cfg c.domtree <;> rfl
  refine ⟨⟨htr, ?_, ?_⟩, ?_⟩
  · rw [htr]
    decide
  · rw [htr]
    decide
  · intro h
    exact (traceSpec_prologue_epilogue isa c).2 () h

theorem regalloc_no_verify_prologue_epilogue_verifies_witness :
    (Context.regalloc_op (trivIsa ⟨OptLevel.Fastest, false, true⟩) Context.new).2.1 =
      [Ev.regalloc] ∧
    (Context.prologue_epilogue (trivIsa ⟨OptLevel.Fastest, false, true⟩) Context.new).2.1 =
      Ev.prologueEpilogue ::
        (verifyEv (trivIsa ⟨OptLevel.Fastest, false, true⟩).flags ++
         verifyLocEv (trivIsa ⟨OptLevel.Fastest, false, true⟩).flags) :=
  ⟨(regalloc_no_verify_prologue_epilogue_verifies
      (trivIsa ⟨OptLevel.Fastest, false, true⟩) Context.new).1.1,
   (regalloc_no_verify_prologue_epilogue_verifies
      (trivIsa ⟨OptLevel.Fastest, false, true⟩) Context.new).2 rfl⟩

/-- C5: whenever `compile` succeeded, a subsequent `emit_to_memory` on the
resulting context returns exactly the `CodeInfo` that `compile` returned,
and `emit_to_memory` never mutates the context it is given. -/
theorem emit_to_memory_matches_compile_info (isa : Isa) (c : Context) (info : CodeInfo)
    (h : (Context.compile isa c).2.2 = Except.ok info) :
    (Context.emit_to_memory isa (Context.compile isa c).1).2.2 = info ∧
    ∀ c2 : Context, (Context.emit_to_memory isa c2).1 = c2 := by
  have hm := compile_measureSpec isa c info h
  exact ⟨hm.symm, fun c2 => rfl⟩

theorem emit_to_memory_matches_compile_info_witness :
    (Context.emit_to_memory (trivIsa ⟨OptLevel.Fastest, false, false⟩)
      (Context.compile (trivIsa ⟨OptLevel.Fastest, false, false⟩) Context.new).1).2.2 =
      CodeInfo.mk 4 0 0 4 ∧
    ∀ c2 : Context,
      (Context.emit_to_memory (trivIsa ⟨OptLevel.Fastest, false, false⟩) c2).1 = c2 :=
  emit_to_memory_matches_compile_info (trivIsa ⟨OptLevel.Fastest, false, false⟩)
    Context.new (CodeInfo.mk 4 0 0 4) rfl

/-- C6: on every successful `compile_and_emit`, the destination buffer
grows by exactly `CodeInfo.total_size` bytes, the pre-existing contents
are untouched (emission writes only into the newly appended region, which
is filled with exactly the emitted bytes), and the buffer resized before
the unchecked emission call is at least `total_size` bytes longer than the
old length, so the call never under-allocates. -/
theorem compile_and_emit_buffer_contract (isa : Isa) (c : Context) (mem : List Nat)
    (info : CodeInfo) (out : List Nat)
    (h : (Context.compile_and_emit isa c mem).2.2 = Except.ok (info, out)) :
    out.length = mem.length + info.total_size ∧
    out.take mem.length = mem ∧
    out.drop mem.length = Isa.emit_bytes isa ((Context.compile isa c).1).func ∧
    mem.length + info.total_size ≤ (mem ++ List.replicate info.total_size 0).length := by
  unfold Context.compile_and_emit at h
  rcases hc : Context.compile isa c with ⟨c1, t, res⟩
  rw [hc] at h
  cases res with
  | error e => cases h
  | ok info0 =>
    have hm : info0 = isa.measure c1.func := by
      have hms := compile_measureSpec isa c
      rw [hc] at hms
      exact hms info0 rfl
    have hb : (Context.emit_to_memory isa c1).2.1 = Isa.emit_bytes isa c1.func := rfl
    have hlen : (Isa.emit_bytes isa c1.func).length = info0.total_size := by
      rw [hm]
      unfold Isa.emit_bytes
      simp
    injection h with h3
    injection h3 with h4 h5
    subst h4
    have htake : (mem ++ List.replicate info0.total_size 0).take mem.length = mem :=
      List.take_left mem _
    have hdrop : (mem ++ List.replicate info0.total_size 0).drop
        (mem.length + (Context.emit_to_memory isa c1).2.1.length) = [] := by
      apply List.drop_eq_nil_of_le
      rw [hb, hlen]
      simp
    rw [htake, hdrop, List.append_nil, hb] at h5
    subst h5
    refine ⟨?_, ?_, ?_, ?_⟩
    · rw [List.length_append, hlen]
    · exact List.take_left mem _
    · exact List.drop_left mem _
    · simp

theorem compile_and_emit_buffer_contract_witness :
    ([5, 6, 0, 0, 0, 0] : List Nat).length = ([5, 6] : List Nat).length + (CodeInfo.mk 4 0 0 4).total_size ∧
    ([5, 6, 0, 0, 0, 0] : List Nat).take ([5, 6] : List Nat).length = [5, 6] ∧
    ([5, 6, 0, 0, 0, 0] : List Nat).drop ([5, 6] : List Nat).length =
      Isa.emit_bytes (trivIsa ⟨OptLevel.Fastest, false, false⟩)
        ((Context.compile (trivIsa ⟨OptLevel.Fastest, false, false⟩) Context.new).1).func ∧
    ([5, 6] : List Nat).length + (CodeInfo.mk 4 0 0 4).total_size ≤
      (([5, 6] : List Nat) ++ List.replicate (CodeInfo.mk 4 0 0 4).total_size 0).length :=
  compile_and_emit_buffer_contract (trivIsa ⟨OptLevel.Fastest, false, false⟩) Context.new
    [5, 6] (CodeInfo.mk 4 0 0 4) [5, 6, 0, 0, 0, 0] rfl

/-- C7: `verify` and `verify_locations` succeed exactly when the violation
list collected by the one check is empty, and on failure return exactly
that complete, non-empty list — never a truncation of it. -/
theorem verify_returns_complete_violations (isa : Isa) (c : Context) :
    ((Context.verify isa c = Except.ok () ↔ isa.verify_context c.func c.cfg c.domtree = []) ∧
     ∀ es, Context.verify isa c = Except.error es →
       es = isa.verify_context c.func c.cfg c.domtree ∧ es ≠ []) ∧
    ((Context.verify_locations isa c = Except.ok () ↔ isa.verify_locations_fn c.func = []) ∧
     ∀ es, Context.verify_locations isa c = Except.error es →
       es = isa.verify_locations_fn c.func ∧ es ≠ []) := by
  refine ⟨⟨?_, ?_⟩, ?_, ?_⟩
  · unfold Context.verify
    cases isa.verify_context c.func c.cfg c.domtree with
    | nil => simp
    | cons a l => simp
  · intro es hes
    unfold Context.verify at hes
    cases hl : isa.verify_context c.func c.cfg c.domtree with
    | nil =>
      rw [hl] at hes
      simp at hes
    | cons a l =>
      rw [hl] at hes
      simp at hes
      subst hes
      exact ⟨rfl, by simp⟩
  · unfold Context.verify_locations
    cases isa.verify_locations_fn c.func with
    | nil => simp
    | cons a l => simp
  · intro es hes
    unfold Context.verify_locations at hes
    cases hl : isa.verify_locations_fn c.func with
    | nil =>
      rw [hl] at hes
      simp at hes
    | cons a l =>
      rw [hl] at hes
      simp at hes
      subst hes
      exact ⟨rfl, by simp⟩

theorem verify_returns_complete_violations_witness :
    ([7, 8] = (failVerifyIsa ⟨OptLevel.Fastest, false, true⟩).verify_context
        Context.new.func Context.new.cfg Context.new.domtree ∧ ([7, 8] : List Nat) ≠ []) ∧
    ([9] = (failVerifyIsa ⟨OptLevel.Fastest, false, true⟩).verify_locations_fn
        Context.new.func ∧ ([9] : List Nat) ≠ []) :=
  ⟨(verify_returns_complete_violations (failVerifyIsa ⟨OptLevel.Fastest, false, true⟩)
      Context.new).1.2 [7, 8] rfl,
   (verify_returns_complete_violations (failVerifyIsa ⟨OptLevel.Fastest, false, true⟩)
      Context.new).2.2 [9] rfl⟩

theorem seqStep_error_eq {α : Type} (c : Context) (t : List Ev) (e : CodegenError)
    (g : Context → Context × List Ev × Except CodegenError α) :
    seqStep (c, t, Except.error e) g = (c, t, Except.error e) := rfl

theorem seqStep_ok_eq {α : Type} (c : Context) (t : List Ev) (u : Unit)
    (g : Context → Context × List Ev × Except CodegenError α) :
    seqStep (c, t, Except.ok u) g = ((g c).1, t ++ (g c).2.1, (g c).2.2) := by
  rcases hg : g c with ⟨c2, t2, r2⟩
  simp [seqStep, hg]

theorem seqStep_nil_ok {α : Type} (c : Context)
    (g : Context → Context × List Ev × Except CodegenError α) :
    seqStep (c, [], Except.ok ()) g = g c := by
  rcases hg : g c with ⟨c2, t2, r2⟩
  simp [seqStep, hg]

theorem seqStep_skip {α : Type} (c : Context)
    (g : Context → Context × List Ev × Except CodegenError α) :
    seqStep (skipStep c) g = g c :=
  seqStep_nil_ok c g

theorem seqStep_assoc {α : Type} (r : Context × List Ev × Except CodegenError Unit)
    (f : Context → Context × List Ev × Except CodegenError Unit)
    (g : Context → Context × List Ev × Except CodegenError α) :
    seqStep (seqStep r f) g = seqStep r (fun c => seqStep (f c) g) := by
  rcases r with ⟨c, t, res⟩
  cases res with
  | error e => rfl
  | ok u =>
    rcases hf : f c with ⟨c2, t2, r2⟩
    cases r2 with
    | error e => simp [seqStep, hf]
    | ok u2 =>
      rcases hg : g c2 with ⟨c3, t3, r3⟩
      simp [seqStep, hf, hg]

theorem seqStep_ite_flatten {α : Type} (b : Prop) [Decidable b] (c : Context)
    (x : Context × List Ev × Except CodegenError Unit)
    (f : Context → Context × List Ev × Except CodegenError Unit)
    (k : Context → Context × List Ev × Except CodegenError α) :
    seqStep (if b then seqStep x f else skipStep c) k =
      seqStep (if b then x else skipStep c)
        (fun c2 => seqStep (if b then f c2 else skipStep c2) k) := by
  by_cases hb : b
  · simp only [hb, if_true]
    exact seqStep_assoc x f k
  · simp only [hb, if_false, seqStep_skip]

theorem runSteps_append
    (L1 L2 : List (Context → Context × List Ev × Except CodegenError Unit)) (c : Context) :
    runSteps (L1 ++ L2) c = seqStep (runSteps L1 c) (runSteps L2) := by
  induction L1 generalizing c with
  | nil => simp [runSteps, seqStep_nil_ok]
  | cons s L ih =>
    simp only [List.cons_append, runSteps]
    rw [seqStep_assoc]
    congr 1
    funext c1
    exact ih c1

/-- Bridge: `Context.compile` is exactly the fail-fast composition of the
flattened step list followed by branch relaxation — same pipeline, same
gates, same sequencing. -/
theorem compile_eq_flat (isa : Isa) (c : Context) :
    Context.compile isa c =
      seqStep (runSteps (compileStepsFlat isa) c)
        (fun c2 => Context.relax_branches isa c2) := by
  unfold Context.compile compileStepsFlat
  simp only [runSteps, seqStep_assoc, seqStep_nil_ok, seqStep_ite_flatten]

/-- C8: `compile` is fail-fast, universally over the pipeline position of
the failure.  For every decomposition of the compile step list into the
steps before a failing step, the failing step itself, and the remaining
steps: if every earlier step succeeds and the step fails, `compile`
returns exactly that step's failure, and the event trace is exactly the
earlier steps' events plus the failing step's own events — the conclusion
does not depend on the remaining steps, so no subsequent pass executes.
The second conjunct covers a failure of the final branch-relaxation step
the same way. -/
theorem compile_fail_fast (isa : Isa) (c : Context) :
    (∀ pre s post c1 t1 c2 t2 e,
       compileStepsFlat isa = pre ++ s :: post →
       runSteps pre c = (c1, t1, Except.ok ()) →
       s c1 = (c2, t2, Except.error e) →
       Context.compile isa c = (c2, t1 ++ t2, Except.error e)) ∧
    (∀ c1 t1 c2 t2 e,
       runSteps (compileStepsFlat isa) c = (c1, t1, Except.ok ()) →
       Context.relax_branches isa c1 = (c2, t2, Except.error e) →
       Context.compile isa c = (c2, t1 ++ t2, Except.error e)) := by
  constructor
  · intro pre s post c1 t1 c2 t2 e hL hpre hs
    have hcons : runSteps (s :: post) c1 = (c2, t2, Except.error e) := by
      show seqStep (s c1) (runSteps post) = _
      rw [hs]
      rfl
    have hrun : runSteps (compileStepsFlat isa) c = (c2, t1 ++ t2, Except.error e) := by
      rw [hL, runSteps_append, hpre, seqStep_ok_eq, hcons]
    rw [compile_eq_flat, hrun]
    rfl
  · intro c1 t1 c2 t2 e hrun hrelax
    rw [compile_eq_flat, hrun, seqStep_ok_eq, hrelax]

theorem compile_fail_fast_witness :
    Context.compile regallocFailIsa Context.new =
      ({ func := Func.new, cfg := 1, domtree := 1, regalloc := 0, loop_analysis := 0 },
        [Ev.computeCfg, Ev.legalize, Ev.computeDomtree, Ev.uce] ++ [Ev.regalloc],
        Except.error (CodegenError.other 3)) :=
  (compile_fail_fast regallocFailIsa Context.new).1
    [fun c => Context.verify_if_op regallocFailIsa c,
     fun c => Context.compute_cfg regallocFailIsa c,
     fun c => if regallocFailIsa.flags.opt_level ≠ OptLevel.Fastest then
       Context.preopt regallocFailIsa c else skipStep c,
     fun c => if regallocFailIsa.flags.enable_nan_canonicalization then
       Context.canonicalize_nans regallocFailIsa c else skipStep c,
     fun c => Context.legalize regallocFailIsa c,
     fun c => if regallocFailIsa.flags.opt_level ≠ OptLevel.Fastest then
       Context.postopt regallocFailIsa c else skipStep c,
     fun c => if regallocFailIsa.flags.opt_level = OptLevel.Best then
       Context.compute_domtree regallocFailIsa c else skipStep c,
     fun c => if regallocFailIsa.flags.opt_level = OptLevel.Best then
       Context.compute_loop_analysis regallocFailIsa c else skipStep c,
     fun c => if regallocFailIsa.flags.opt_level = OptLevel.Best then
       Context.licm regallocFailIsa c else skipStep c,
     fun c => if regallocFailIsa.flags.opt_level = OptLevel.Best then
       Context.simple_gvn regallocFailIsa c else skipStep c,
     fun c => Context.compute_domtree regallocFailIsa c,
     fun c => Context.eliminate_unreachable_code regallocFailIsa c,
     fun c => if regallocFailIsa.flags.opt_level ≠ OptLevel.Fastest then
       Context.dce regallocFailIsa c else skipStep c]
    (fun c => Context.regalloc_op regallocFailIsa c)
    [fun c => Context.prologue_epilogue regallocFailIsa c,
     fun c => if regallocFailIsa.flags.opt_level = OptLevel.Best then
       Context.shrink_instructions regallocFailIsa c else skipStep c]
    { func := Func.new, cfg := 1, domtree := 1, regalloc := 0, loop_analysis := 0 }
    [Ev.computeCfg, Ev.legalize, Ev.computeDomtree, Ev.uce]
    { func := Func.new, cfg := 1, domtree := 1, regalloc := 0, loop_analysis := 0 }
    [Ev.regalloc]
    (CodegenError.other 3)
    rfl rfl rfl

/-- C9: clearing a previously used context and then compiling-and-emitting
a function `g` gives exactly the same result — `CodeInfo`, emitted bytes
and final state — as doing so from a freshly constructed context: `clear`
resets every owned structure, so no state leaks across reuse. -/
theorem clear_reuse_isolation (isa : Isa) (c : Context) (g : Func) (mem : List Nat) :
    Context.compile_and_emit isa { Context.clear c with func := g } mem =
      Context.compile_and_emit isa { Context.new with func := g } mem := rfl

/-- C10: `FunctionRunner::run` rejects, before compiling anything (empty
event trace), any function whose signature is not exactly zero parameters
with one boolean return, and any function whose calling convention is
neither the host ISA's default nor `Fast`; and since `run` clones the
stored function, the runner itself is never mutated by a call. -/
theorem function_runner_run_guards (r : FunctionRunner) :
    (sigCheck r.function.signature = false →
      FunctionRunner.run r = (r, [], Except.error sigMsg)) ∧
    (sigCheck r.function.signature = true →
      r.function.signature.call_conv ≠ r.isa.default_call_conv →
      r.function.signature.call_conv ≠ CallConv.Fast →
      FunctionRunner.run r = (r, [], Except.error ccMsg)) ∧
    (FunctionRunner.run r).1 = r := by
  refine ⟨?_, ?_, ?_⟩
  · intro h
    unfold FunctionRunner.run
    simp [h]
  · intro h1 h2 h3
    unfold FunctionRunner.run
    simp [h1, h2, h3]
  · unfold FunctionRunner.run
    dsimp only
    split
    · rfl
    · split
      · rfl
      · split
        · rfl
        · split <;> rfl

theorem function_runner_run_guards_witness :
    FunctionRunner.run runnerBadSig = (runnerBadSig, [], Except.error sigMsg) ∧
    FunctionRunner.run runnerBadCc = (runnerBadCc, [], Except.error ccMsg) ∧
    (FunctionRunner.run runnerBadSig).1 = runnerBadSig :=
  ⟨(function_runner_run_guards runnerBadSig).1 rfl,
   (function_runner_run_guards runnerBadCc).2.1 rfl (by decide) (by decide),
   (function_runner_run_guards runnerBadSig).2.2⟩
